import Mathlib

/-!
Verification of the filter-and-aggregate pipeline of the Superstore
sales dashboard (`src/streamlit_dashboards.py`).

The pandas dataframe is embedded as a `List Record`; monetary and
numeric columns (float64 in pandas) are embedded as `ℚ`; timestamps
are embedded as civil `Date`s together with their day number
(`Date.toDays`, the standard days-from-civil computation, so that
timestamp comparison and timestamp subtraction in days coincide with
the pandas behaviour on valid dates).  A float ratio whose denominator
is zero is non-finite in pandas (NaN, never an exception and never
zero); such a ratio is embedded as an `Option ℚ` whose `none` value is
the undefined sentinel.
-/

set_option maxRecDepth 2000

namespace Superstore

/-- A civil calendar date (year, month 1..12, day 1..31), the embedding of a
pandas `Timestamp` at day resolution. -/
structure Date where
  year : Int
  month : Int
  day : Int
deriving DecidableEq

/-- Day number of a civil date (days since 1970-01-01, negative before);
the standard days-from-civil computation.  `pd.Timestamp` subtraction with
`.dt.days` equals the difference of the two day numbers, and timestamp
order equals day-number order. -/
def Date.toDays (dt : Date) : Int :=
  let y : Int := if dt.month ≤ 2 then dt.year - 1 else dt.year
  let era : Int := (if 0 ≤ y then y else y - 399) / 400
  let yoe : Int := y - era * 400
  let doy : Int := (153 * (dt.month + (if 2 < dt.month then -3 else 9)) + 2) / 5 + dt.day - 1
  let doe : Int := yoe * 365 + yoe / 4 - yoe / 100 + doy
  era * 146097 + doe - 719468

/-- One raw CSV row of the Superstore table, before the loader derives
the processing time (`src/streamlit_dashboards.py` schema). -/
structure RawRecord where
  orderId : String
  customerName : String
  orderDate : Date
  shipDate : Date
  category : String
  subCategory : String
  region : String
  state : String
  shipMode : String
  segment : String
  sales : ℚ
  profit : ℚ
  quantity : ℚ
  discount : ℚ
deriving DecidableEq

/-- One order line record after loading: the raw columns plus the derived
`Processing Time` column (line 56 of the source). -/
structure Record where
  orderId : String
  customerName : String
  orderDate : Date
  shipDate : Date
  category : String
  subCategory : String
  region : String
  state : String
  shipMode : String
  segment : String
  sales : ℚ
  profit : ℚ
  quantity : ℚ
  discount : ℚ
  processingTime : Int
deriving DecidableEq

/-- `df['Processing Time'] = (df['Ship Date'] - df['Order Date']).dt.days`
(line 56): the derived whole-day difference, negative when the ship date
precedes the order date, with no correction applied. -/
def addProcessingTime (r : RawRecord) : Record :=
  { orderId := r.orderId
    customerName := r.customerName
    orderDate := r.orderDate
    shipDate := r.shipDate
    category := r.category
    subCategory := r.subCategory
    region := r.region
    state := r.state
    shipMode := r.shipMode
    segment := r.segment
    sales := r.sales
    profit := r.profit
    quantity := r.quantity
    discount := r.discount
    processingTime := r.shipDate.toDays - r.orderDate.toDays }

/-- The row-transforming part of `load_data` (lines 51-57): parse rows and
derive the processing-time column. -/
def load_data (rows : List RawRecord) : List Record :=
  rows.map addProcessingTime

/-- The file-resolution part of `load_data` (lines 43-49): the CSV is read
from the current directory if present there, else from the parent
directory, else `st.error` is shown and an empty dataframe is returned.
`cur` / `parent` are the contents of `Sample - Superstore.csv` at the two
locations (`none` = file absent or unreadable). -/
def load_data_from (cur parent : Option (List RawRecord)) : List Record :=
  match cur with
  | some rows => load_data rows
  | none =>
    match parent with
    | some rows => load_data rows
    | none => []

/-- The per-dimension filter state collected by the sidebar (lines 74-144):
a date interval and, per categorical dimension, the list of checked
values. -/
structure FilterSpec where
  startDate : Date
  endDate : Date
  categories : List String
  subCategories : List String
  regions : List String
  states : List String
  shipModes : List String
  segments : List String

/-- The conjunctive row mask of lines 148-155, in the source's order:
date lower bound, date upper bound, then `isin` membership for category,
region, ship mode, state, segment and sub-category. -/
def recordPasses (s : FilterSpec) (r : Record) : Bool :=
  decide (s.startDate.toDays ≤ r.orderDate.toDays) &&
  decide (r.orderDate.toDays ≤ s.endDate.toDays) &&
  decide (r.category ∈ s.categories) &&
  decide (r.region ∈ s.regions) &&
  decide (r.shipMode ∈ s.shipModes) &&
  decide (r.state ∈ s.states) &&
  decide (r.segment ∈ s.segments) &&
  decide (r.subCategory ∈ s.subCategories)

/-- `filtered_df = df[mask]` (lines 147-156): boolean-mask selection keeps
exactly the rows whose mask is true, in their original order. -/
def filtered_df (df : List Record) (s : FilterSpec) : List Record :=
  df.filter (recordPasses s)

/-- `if df.empty: st.error(...); st.stop()` followed by the filter stage
(lines 63-65 and 147-156): `st.stop()` halts the script before any
filtering or aggregation runs, embedded as `none`. -/
def run_pipeline (cur parent : Option (List RawRecord)) (s : FilterSpec) :
    Option (List Record) :=
  let df := load_data_from cur parent
  if df.isEmpty then none else some (filtered_df df s)

/-- Float division of already-summed totals: `none` is the non-finite
sentinel produced by a zero denominator (pandas emits NaN there, never an
exception and never zero). -/
def safeDiv (a b : ℚ) : Option ℚ :=
  if b = 0 then none else some (a / b)

/-- `frame['Sales'].sum()`. -/
def sumSales (df : List Record) : ℚ :=
  (df.map Record.sales).sum

/-- `frame['Profit'].sum()`. -/
def sumProfit (df : List Record) : ℚ :=
  (df.map Record.profit).sum

/-- The five scalar metrics of the Overview tab (lines 167-198). -/
structure KPI where
  totalSales : ℚ
  totalProfit : ℚ
  avgMarginPct : Option ℚ
  totalLosses : ℚ
  totalOrders : Nat
deriving DecidableEq

/-- Lines 167-198: total sales, total profit, average profit margin
(`Profit.sum() / Sales.sum() * 100`), total losses
(`abs(df[df['Profit'] < 0]['Profit'].sum())`), and distinct order count
(`df['Order ID'].nunique()`). -/
def computeKPIs (df : List Record) : KPI :=
  { totalSales := sumSales df
    totalProfit := sumProfit df
    avgMarginPct := (safeDiv (sumProfit df) (sumSales df)).map (fun q => q * 100)
    totalLosses := |sumProfit (df.filter (fun r => decide (r.profit < 0)))|
    totalOrders := (df.map Record.orderId).dedup.length }

/-- One output row of a single-key `groupby(...).agg({'Sales': 'sum',
'Profit': 'sum'})`. -/
structure GroupRow where
  key : String
  sales : ℚ
  profit : ℚ
deriving DecidableEq

/-- `df.groupby(key).agg({'Sales': 'sum', 'Profit': 'sum'})`: one row per
distinct key value, keys sorted ascending (the pandas groupby default),
each carrying the sums over that key's rows. -/
def groupAgg (key : Record → String) (df : List Record) : List GroupRow :=
  ((df.map key).dedup.insertionSort (fun a b => a ≤ b)).map
    (fun k =>
      { key := k
        sales := sumSales (df.filter (fun r => decide (key r = k)))
        profit := sumProfit (df.filter (fun r => decide (key r = k))) })

/-- The post-aggregation ratio column
`agg['Profit Margin'] = (agg['Profit'] / agg['Sales']) * 100`
(lines 245, 284, 502), computed over already-summed group totals. -/
def withProfitMargin (rows : List GroupRow) : List (GroupRow × Option ℚ) :=
  rows.map (fun g => (g, (safeDiv g.profit g.sales).map (fun q => q * 100)))

/-- `category_sales` (lines 239-242). -/
def category_sales (df : List Record) : List GroupRow :=
  groupAgg Record.category df

/-- `subcategory_sales` (lines 381-383): grouped by sub-category and then
sorted by summed sales, descending. -/
def subcategory_sales (df : List Record) : List GroupRow :=
  (groupAgg Record.subCategory df).insertionSort (fun a b => b.sales ≤ a.sales)

/-- The calendar month of a date as a single linear index
(`year * 12 + (month - 1)`); two dates get the same index exactly when
they lie in the same calendar month. -/
def monthIndex (d : Date) : Int :=
  d.year * 12 + (d.month - 1)

/-- One output row of the monthly `groupby(pd.Grouper(key='Order Date',
freq='M'))` (lines 202-205), the bucket identified by its calendar
month. -/
structure MonthRow where
  month : Int
  sales : ℚ
  profit : ℚ
deriving DecidableEq

/-- The binning performed by a time `Grouper`: every value from the
minimum to the maximum inclusive, in order — the resample-style dense
range that also yields bins in which no row falls. -/
def denseRange (ms : List Int) : List Int :=
  match ms with
  | [] => []
  | m :: t =>
    let lo := t.foldl min m
    let hi := t.foldl max m
    (List.range (hi - lo + 1).toNat).map (fun (i : Nat) => lo + (i : Int))

/-- The month buckets of `monthly_sales`: one bucket per calendar month
from the earliest to the latest order date present (dense, as
`pd.Grouper(freq='M')` bins). -/
def monthKeys (df : List Record) : List Int :=
  denseRange (df.map (fun r => monthIndex r.orderDate))

/-- `monthly_sales` (lines 202-205): per month bucket, the summed sales
and profit of the rows whose order date falls in that month (zero for a
bucket containing no rows). -/
def monthly_sales (df : List Record) : List MonthRow :=
  (monthKeys df).map
    (fun k =>
      { month := k
        sales := sumSales (df.filter (fun r => decide (monthIndex r.orderDate = k)))
        profit := sumProfit (df.filter (fun r => decide (monthIndex r.orderDate = k))) })

/-- The spec's wording of the filter predicate (section 4.2): order date
within the inclusive interval and, for every categorical dimension,
membership of the record's value in that dimension's allowed-value
set. -/
def specPasses (s : FilterSpec) (r : Record) : Prop :=
  (s.startDate.toDays ≤ r.orderDate.toDays ∧ r.orderDate.toDays ≤ s.endDate.toDays) ∧
  r.category ∈ s.categories ∧ r.subCategory ∈ s.subCategories ∧
  r.region ∈ s.regions ∧ r.state ∈ s.states ∧
  r.shipMode ∈ s.shipModes ∧ r.segment ∈ s.segments

/-- The six categorical filter dimensions. -/
inductive Dimension
  | cat
  | subcat
  | region
  | state
  | shipMode
  | segment

/-- Remove one value from the allowed-value set of one dimension, leaving
the rest of the FilterSpec unchanged. -/
def removeValue (d : Dimension) (v : String) (s : FilterSpec) : FilterSpec :=
  match d with
  | .cat => { s with categories := s.categories.erase v }
  | .subcat => { s with subCategories := s.subCategories.erase v }
  | .region => { s with regions := s.regions.erase v }
  | .state => { s with states := s.states.erase v }
  | .shipMode => { s with shipModes := s.shipModes.erase v }
  | .segment => { s with segments := s.segments.erase v }

/-- A baseline raw row used by the concrete test records. -/
def baseRaw : RawRecord :=
  { orderId := "ORD-1"
    customerName := "Alice"
    orderDate := ⟨2023, 1, 1⟩
    shipDate := ⟨2023, 1, 5⟩
    category := "Furniture"
    subCategory := "Chairs"
    region := "West"
    state := "California"
    shipMode := "Standard Class"
    segment := "Consumer"
    sales := 100
    profit := 20
    quantity := 1
    discount := 0 }

/-- Raw row ordered 2023-01-01 and shipped 2023-01-05. -/
def demoShip : RawRecord := baseRaw

/-- Raw row whose ship date precedes its order date by four days. -/
def demoShipNeg : RawRecord :=
  { baseRaw with orderDate := ⟨2023, 1, 5⟩, shipDate := ⟨2023, 1, 1⟩ }

/-- Two loaded records with sales [100, 50] and profit [20, -10] on two
distinct order ids. -/
def demoTwo : List Record :=
  [addProcessingTime baseRaw,
   addProcessingTime { baseRaw with orderId := "ORD-2", sales := 50, profit := -10 }]

/-- Raw row dated 2023-03-05 with sales 10 and zero profit. -/
def demoMarchRaw1 : RawRecord :=
  { baseRaw with orderDate := ⟨2023, 3, 5⟩, shipDate := ⟨2023, 3, 8⟩, sales := 10, profit := 0 }

/-- Three loaded records all dated in March 2023 with sales [10, 20, 30]
and zero profit. -/
def demoMarch : List Record :=
  [addProcessingTime demoMarchRaw1,
   addProcessingTime { baseRaw with orderId := "ORD-2", orderDate := ⟨2023, 3, 15⟩, shipDate := ⟨2023, 3, 18⟩, sales := 20, profit := 0 },
   addProcessingTime { baseRaw with orderId := "ORD-3", orderDate := ⟨2023, 3, 25⟩, shipDate := ⟨2023, 3, 28⟩, sales := 30, profit := 0 }]

/-- Raw row dated 2023-01-15. -/
def demoJanRaw : RawRecord :=
  { baseRaw with orderDate := ⟨2023, 1, 15⟩, shipDate := ⟨2023, 1, 18⟩ }

/-- Raw row dated 2023-03-10. -/
def demoMarRaw : RawRecord :=
  { baseRaw with orderId := "ORD-2", orderDate := ⟨2023, 3, 10⟩, shipDate := ⟨2023, 3, 13⟩ }

/-- Two loaded records, one dated 2023-01-15 and one dated 2023-03-10:
no record is dated in February 2023. -/
def demoJanMar : List Record :=
  [addProcessingTime demoJanRaw, addProcessingTime demoMarRaw]

/-- A loaded record with zero sales and negative profit. -/
def demoZeroSales : Record :=
  addProcessingTime { baseRaw with sales := 0, profit := -5 }

/-- A FilterSpec covering the full date range and the full value domain of
every dimension of `demoTwo`. -/
def demoFullSpec : FilterSpec :=
  { startDate := ⟨2023, 1, 1⟩
    endDate := ⟨2023, 12, 31⟩
    categories := ["Furniture"]
    subCategories := ["Chairs"]
    regions := ["West"]
    states := ["California"]
    shipModes := ["Standard Class"]
    segments := ["Consumer"] }

/-- `demoFullSpec` with the category allowed-value set emptied. -/
def demoEmptyCatSpec : FilterSpec :=
  { demoFullSpec with categories := [] }

/- Helper lemmas about list filtering, fiber sums and fold extrema. -/

theorem length_filter_mono {α : Type} (p q : α → Bool) (l : List α)
    (h : ∀ a ∈ l, p a = true → q a = true) :
    (l.filter p).length ≤ (l.filter q).length := by
  induction l with
  | nil => simp
  | cons a t ih =>
    have ht : ∀ x ∈ t, p x = true → q x = true :=
      fun x hx => h x (List.mem_cons_of_mem a hx)
    have iht := ih ht
    cases hp : p a with
    | false =>
      cases hq : q a <;> simp [List.filter_cons, hp, hq] <;> omega
    | true =>
      have hqa : q a = true := h a (List.mem_cons_self a t) hp
      simp [List.filter_cons, hp, hqa]
      omega

theorem sum_fiber_split {α : Type} (f : α → ℚ) (p : α → Bool) (l : List α) :
    ((l.filter p).map f).sum + ((l.filter (fun a => !(p a))).map f).sum
      = (l.map f).sum := by
  induction l with
  | nil => simp
  | cons a t ih =>
    cases hp : p a <;> simp [List.filter_cons, hp] <;> linarith [ih]

theorem sum_over_fibers {α : Type} (key : α → String) (f : α → ℚ) :
    ∀ (ks : List String), ks.Nodup → ∀ l : List α, (∀ r ∈ l, key r ∈ ks) →
      (ks.map (fun k => ((l.filter (fun r => decide (key r = k))).map f).sum)).sum
        = (l.map f).sum := by
  intro ks
  induction ks with
  | nil =>
    intro _ l hl
    cases l with
    | nil => simp
    | cons a t => exact absurd (hl a (List.mem_cons_self a t)) (List.not_mem_nil _)
  | cons k ks ih =>
    intro hnd l hl
    have hknotin : k ∉ ks := (List.nodup_cons.mp hnd).1
    have hndks : ks.Nodup := (List.nodup_cons.mp hnd).2
    have hcov2 : ∀ r ∈ l.filter (fun r => !(decide (key r = k))), key r ∈ ks := by
      intro r hr
      have hr' := List.mem_filter.mp hr
      have hne : ¬(key r = k) := by simpa using hr'.2
      rcases List.mem_cons.mp (hl r hr'.1) with h | h
      · exact absurd h hne
      · exact h
    have hmaps : ∀ k2 ∈ ks,
        ((l.filter (fun r => decide (key r = k2))).map f).sum
          = (((l.filter (fun r => !(decide (key r = k)))).filter
              (fun r => decide (key r = k2))).map f).sum := by
      intro k2 hk2
      have hne : k2 ≠ k := fun h => hknotin (h ▸ hk2)
      have hfil : l.filter (fun r => decide (key r = k2))
          = (l.filter (fun r => !(decide (key r = k)))).filter
              (fun r => decide (key r = k2)) := by
        rw [List.filter_filter]
        apply List.filter_congr
        intro r _
        by_cases h : key r = k2
        · simp [h, hne]
        · simp [h]
      rw [hfil]
    calc ((k :: ks).map
            (fun k2 => ((l.filter (fun r => decide (key r = k2))).map f).sum)).sum
        = ((l.filter (fun r => decide (key r = k))).map f).sum
            + (ks.map
                (fun k2 => ((l.filter (fun r => decide (key r = k2))).map f).sum)).sum := by
          simp
      _ = ((l.filter (fun r => decide (key r = k))).map f).sum
            + (ks.map (fun k2 =>
                (((l.filter (fun r => !(decide (key r = k)))).filter
                  (fun r => decide (key r = k2))).map f).sum)).sum := by
          rw [List.map_congr_left hmaps]
      _ = ((l.filter (fun r => decide (key r = k))).map f).sum
            + ((l.filter (fun r => !(decide (key r = k)))).map f).sum := by
          rw [ih hndks (l.filter (fun r => !(decide (key r = k)))) hcov2]
      _ = (l.map f).sum := sum_fiber_split f (fun r => decide (key r = k)) l

theorem foldl_min_le_init (l : List Int) (a : Int) : l.foldl min a ≤ a := by
  induction l generalizing a with
  | nil => simp
  | cons x t ih => exact le_trans (ih (min a x)) (min_le_left a x)

theorem foldl_min_le_of_mem : ∀ (l : List Int) (a x : Int), x ∈ l → l.foldl min a ≤ x := by
  intro l
  induction l with
  | nil => intro a x hx; exact absurd hx (List.not_mem_nil x)
  | cons y t ih =>
    intro a x hx
    rcases List.mem_cons.mp hx with h | h
    · subst h
      exact le_trans (foldl_min_le_init t (min a x)) (min_le_right a x)
    · exact ih (min a y) x h

theorem le_foldl_max_init (l : List Int) (a : Int) : a ≤ l.foldl max a := by
  induction l generalizing a with
  | nil => simp
  | cons x t ih => exact le_trans (le_max_left a x) (ih (max a x))

theorem le_foldl_max_of_mem : ∀ (l : List Int) (a x : Int), x ∈ l → x ≤ l.foldl max a := by
  intro l
  induction l with
  | nil => intro a x hx; exact absurd hx (List.not_mem_nil x)
  | cons y t ih =>
    intro a x hx
    rcases List.mem_cons.mp hx with h | h
    · subst h
      exact le_trans (le_max_right a x) (le_foldl_max_init t (max a x))
    · exact ih (max a y) x h

theorem foldl_min_le_of_mem_head (m x : Int) (t : List Int) (hx : x ∈ m :: t) :
    t.foldl min m ≤ x := by
  rcases List.mem_cons.mp hx with h | h
  · subst h; exact foldl_min_le_init t x
  · exact foldl_min_le_of_mem t m x h

theorem le_foldl_max_of_mem_head (m x : Int) (t : List Int) (hx : x ∈ m :: t) :
    x ≤ t.foldl max m := by
  rcases List.mem_cons.mp hx with h | h
  · subst h; exact le_foldl_max_init t x
  · exact le_foldl_max_of_mem t m x h

theorem foldl_min_mem : ∀ (l : List Int) (a : Int), l.foldl min a = a ∨ l.foldl min a ∈ l := by
  intro l
  induction l with
  | nil => intro a; exact Or.inl rfl
  | cons y t ih =>
    intro a
    rcases ih (min a y) with h | h
    · rcases min_choice a y with h2 | h2
      · exact Or.inl (by rw [List.foldl_cons, h, h2])
      · exact Or.inr (by rw [List.foldl_cons, h, h2]; exact List.mem_cons_self y t)
    · exact Or.inr (List.mem_cons_of_mem y (by rw [List.foldl_cons]; exact h))

theorem foldl_max_mem : ∀ (l : List Int) (a : Int), l.foldl max a = a ∨ l.foldl max a ∈ l := by
  intro l
  induction l with
  | nil => intro a; exact Or.inl rfl
  | cons y t ih =>
    intro a
    rcases ih (max a y) with h | h
    · rcases max_choice a y with h2 | h2
      · exact Or.inl (by rw [List.foldl_cons, h, h2])
      · exact Or.inr (by rw [List.foldl_cons, h, h2]; exact List.mem_cons_self y t)
    · exact Or.inr (List.mem_cons_of_mem y (by rw [List.foldl_cons]; exact h))

theorem mem_denseRange_of_bounds (m x : Int) (t : List Int)
    (hlo : t.foldl min m ≤ x) (hhi : x ≤ t.foldl max m) :
    x ∈ denseRange (m :: t) := by
  simp only [denseRange]
  refine List.mem_map.mpr ⟨(x - t.foldl min m).toNat, List.mem_range.mpr ?_, ?_⟩
  · omega
  · omega

theorem mem_denseRange (ms : List Int) (x : Int) (hx : x ∈ ms) :
    x ∈ denseRange ms := by
  cases ms with
  | nil => exact absurd hx (List.not_mem_nil x)
  | cons m t =>
    exact mem_denseRange_of_bounds m x t (foldl_min_le_of_mem_head m x t hx)
      (le_foldl_max_of_mem_head m x t hx)

theorem sum_nonpos_of_forall (l : List ℚ) (h : ∀ x ∈ l, x ≤ 0) : l.sum ≤ 0 := by
  induction l with
  | nil => simp
  | cons a t ih =>
    have hts := ih (fun x hx => h x (List.mem_cons_of_mem a hx))
    have ha := h a (List.mem_cons_self a t)
    simp only [List.sum_cons]
    linarith

theorem abs_sum_of_nonpos (l : List ℚ) (h : ∀ x ∈ l, x ≤ 0) :
    |l.sum| = (l.map (fun x => |x|)).sum := by
  induction l with
  | nil => simp
  | cons a t ih =>
    have ha : a ≤ 0 := h a (List.mem_cons_self a t)
    have ht : ∀ x ∈ t, x ≤ 0 := fun x hx => h x (List.mem_cons_of_mem a hx)
    have hts : t.sum ≤ 0 := sum_nonpos_of_forall t ht
    calc |(a :: t).sum| = |a + t.sum| := by simp
      _ = -(a + t.sum) := abs_of_nonpos (by linarith)
      _ = -a + -t.sum := by ring
      _ = |a| + |t.sum| := by rw [abs_of_nonpos ha, abs_of_nonpos hts]
      _ = |a| + (t.map (fun x => |x|)).sum := by rw [ih ht]
      _ = ((a :: t).map (fun x => |x|)).sum := by simp

theorem monthly_sales_months (df : List Record) :
    (monthly_sales df).map MonthRow.month = monthKeys df := by
  rw [monthly_sales, List.map_map]
  exact List.map_id _

theorem recordPasses_removeValue (d : Dimension) (v : String) (s : FilterSpec)
    (r : Record) (h : recordPasses (removeValue d v s) r = true) :
    recordPasses s r = true := by
  cases d with
  | cat =>
    simp only [recordPasses, removeValue, Bool.and_eq_true, decide_eq_true_eq] at h ⊢
    obtain ⟨⟨⟨⟨⟨⟨⟨h1, h2⟩, h3⟩, h4⟩, h5⟩, h6⟩, h7⟩, h8⟩ := h
    exact ⟨⟨⟨⟨⟨⟨⟨h1, h2⟩, List.mem_of_mem_erase h3⟩, h4⟩, h5⟩, h6⟩, h7⟩, h8⟩
  | subcat =>
    simp only [recordPasses, removeValue, Bool.and_eq_true, decide_eq_true_eq] at h ⊢
    obtain ⟨⟨⟨⟨⟨⟨⟨h1, h2⟩, h3⟩, h4⟩, h5⟩, h6⟩, h7⟩, h8⟩ := h
    exact ⟨⟨⟨⟨⟨⟨⟨h1, h2⟩, h3⟩, h4⟩, h5⟩, h6⟩, h7⟩, List.mem_of_mem_erase h8⟩
  | region =>
    simp only [recordPasses, removeValue, Bool.and_eq_true, decide_eq_true_eq] at h ⊢
    obtain ⟨⟨⟨⟨⟨⟨⟨h1, h2⟩, h3⟩, h4⟩, h5⟩, h6⟩, h7⟩, h8⟩ := h
    exact ⟨⟨⟨⟨⟨⟨⟨h1, h2⟩, h3⟩, List.mem_of_mem_erase h4⟩, h5⟩, h6⟩, h7⟩, h8⟩
  | state =>
    simp only [recordPasses, removeValue, Bool.and_eq_true, decide_eq_true_eq] at h ⊢
    obtain ⟨⟨⟨⟨⟨⟨⟨h1, h2⟩, h3⟩, h4⟩, h5⟩, h6⟩, h7⟩, h8⟩ := h
    exact ⟨⟨⟨⟨⟨⟨⟨h1, h2⟩, h3⟩, h4⟩, h5⟩, List.mem_of_mem_erase h6⟩, h7⟩, h8⟩
  | shipMode =>
    simp only [recordPasses, removeValue, Bool.and_eq_true, decide_eq_true_eq] at h ⊢
    obtain ⟨⟨⟨⟨⟨⟨⟨h1, h2⟩, h3⟩, h4⟩, h5⟩, h6⟩, h7⟩, h8⟩ := h
    exact ⟨⟨⟨⟨⟨⟨⟨h1, h2⟩, h3⟩, h4⟩, List.mem_of_mem_erase h5⟩, h6⟩, h7⟩, h8⟩
  | segment =>
    simp only [recordPasses, removeValue, Bool.and_eq_true, decide_eq_true_eq] at h ⊢
    obtain ⟨⟨⟨⟨⟨⟨⟨h1, h2⟩, h3⟩, h4⟩, h5⟩, h6⟩, h7⟩, h8⟩ := h
    exact ⟨⟨⟨⟨⟨⟨⟨h1, h2⟩, h3⟩, h4⟩, h5⟩, h6⟩, List.mem_of_mem_erase h7⟩, h8⟩

/-- C1: `filtered_df` returns exactly the records whose order date lies in
the inclusive interval and whose value in each of the six categorical
dimensions belongs to that dimension's allowed-value set, and the result
is a subsequence of the input (stable relative order). -/
theorem filter_exact_and_stable (df : List Record) (s : FilterSpec) :
    (filtered_df df s).Sublist df ∧
    ∀ r : Record, r ∈ filtered_df df s ↔ r ∈ df ∧ specPasses s r := by
  constructor
  · exact List.filter_sublist df
  · intro r
    rw [filtered_df, List.mem_filter]
    constructor
    · rintro ⟨hmem, hpass⟩
      refine ⟨hmem, ?_⟩
      simp only [recordPasses, Bool.and_eq_true, decide_eq_true_eq] at hpass
      unfold specPasses
      tauto
    · rintro ⟨hmem, hpass⟩
      refine ⟨hmem, ?_⟩
      simp only [recordPasses, Bool.and_eq_true, decide_eq_true_eq]
      unfold specPasses at hpass
      tauto

theorem filter_exact_and_stable_witness :
    (filtered_df demoTwo demoFullSpec).Sublist demoTwo :=
  (filter_exact_and_stable demoTwo demoFullSpec).1

/-- C2: when any one dimension's allowed-value set is empty, `filtered_df`
returns the empty record set (no select-all fallback), and `computeKPIs`
of that empty set returns all-zero KPIs with the `none` sentinel for the
average margin, without any failure. -/
theorem empty_dimension_empty_result (df : List Record) (s : FilterSpec)
    (h : s.categories = [] ∨ s.subCategories = [] ∨ s.regions = [] ∨
      s.states = [] ∨ s.shipModes = [] ∨ s.segments = []) :
    filtered_df df s = [] ∧
      computeKPIs (filtered_df df s) =
        { totalSales := 0, totalProfit := 0, avgMarginPct := none,
          totalLosses := 0, totalOrders := 0 } := by
  have hempty : filtered_df df s = [] := by
    rw [filtered_df, List.filter_eq_nil_iff]
    intro r _
    intro hpass
    simp only [recordPasses, Bool.and_eq_true, decide_eq_true_eq] at hpass
    rcases h with h | h | h | h | h | h <;> rw [h] at hpass <;>
      simp only [List.not_mem_nil] at hpass <;> tauto
  refine ⟨hempty, ?_⟩
  rw [hempty]
  simp [computeKPIs, sumSales, sumProfit, safeDiv]

theorem empty_dimension_empty_result_witness :
    demoEmptyCatSpec.categories = [] ∧
    (filtered_df demoTwo demoEmptyCatSpec = [] ∧
      computeKPIs (filtered_df demoTwo demoEmptyCatSpec) =
        { totalSales := 0, totalProfit := 0, avgMarginPct := none,
          totalLosses := 0, totalOrders := 0 }) :=
  ⟨rfl, empty_dimension_empty_result demoTwo demoEmptyCatSpec (Or.inl rfl)⟩

/-- C3 counterexample: with one record dated 2023-01-15 and one dated
2023-03-10, `monthly_sales` produces three buckets — January, February
and March 2023 (month indices 24276, 24277, 24278) — although no record
is dated in February 2023.  This refutes the claim that months containing
no records are omitted from the result. -/
theorem monthly_omission_counterexample :
    (monthly_sales demoJanMar).map MonthRow.month = [24276, 24277, 24278] ∧
    ∀ r ∈ demoJanMar, monthIndex r.orderDate ≠ 24277 := by
  constructor
  · decide
  · decide

/-- C3 amended: every record is assigned to the bucket of the calendar
month containing its order date; the result contains exactly one bucket
for every calendar month between the earliest and the latest order date
present, inclusive — any month lying between the months of two records
present has a bucket, every bucket month lies between the months of two
records present, and no month appears twice — each bucket summing the
sales of exactly the records of its month, so a month with no records is
zero-filled (sales and profit 0), not omitted; three records all dated in
March 2023 with sales [10, 20, 30] produce exactly one bucket with summed
sales 60. -/
theorem monthly_dense_buckets :
    (∀ (df : List Record) (r : Record), r ∈ df →
        monthIndex r.orderDate ∈ (monthly_sales df).map MonthRow.month) ∧
    (∀ (df : List Record) (r₁ r₂ : Record) (m : Int), r₁ ∈ df → r₂ ∈ df →
        monthIndex r₁.orderDate ≤ m → m ≤ monthIndex r₂.orderDate →
        m ∈ (monthly_sales df).map MonthRow.month) ∧
    (∀ (df : List Record) (m : Int), m ∈ (monthly_sales df).map MonthRow.month →
        (∃ r₁ ∈ df, monthIndex r₁.orderDate ≤ m) ∧
        (∃ r₂ ∈ df, m ≤ monthIndex r₂.orderDate)) ∧
    (∀ df : List Record, ((monthly_sales df).map MonthRow.month).Nodup) ∧
    (∀ (df : List Record) (row : MonthRow), row ∈ monthly_sales df →
        row.sales
            = sumSales (df.filter (fun r => decide (monthIndex r.orderDate = row.month))) ∧
        row.profit
            = sumProfit (df.filter (fun r => decide (monthIndex r.orderDate = row.month)))) ∧
    (∀ (df : List Record) (row : MonthRow), row ∈ monthly_sales df →
        (∀ r ∈ df, monthIndex r.orderDate ≠ row.month) →
        row.sales = 0 ∧ row.profit = 0) ∧
    monthly_sales demoMarch = [{ month := 24278, sales := 60, profit := 0 }] := by
  have hk : monthKeys demoMarch = [24278] := by decide
  have hf : demoMarch.filter (fun r => decide (monthIndex r.orderDate = 24278))
      = demoMarch := by decide
  have hs : sumSales demoMarch = 60 := by
    norm_num [sumSales, demoMarch, demoMarchRaw1, addProcessingTime, baseRaw]
  have hp : sumProfit demoMarch = 0 := by
    norm_num [sumProfit, demoMarch, demoMarchRaw1, addProcessingTime, baseRaw]
  refine ⟨?_, ?_, ?_, ?_, ?_, ?_, by rw [monthly_sales, hk]; simp [hf, hs, hp]⟩
  · intro df r hr
    rw [monthly_sales_months, monthKeys]
    exact mem_denseRange _ _ (List.mem_map_of_mem _ hr)
  · intro df r₁ r₂ m h₁ h₂ hle₁ hle₂
    rw [monthly_sales_months, monthKeys]
    have hm₁ : monthIndex r₁.orderDate ∈ df.map (fun r => monthIndex r.orderDate) :=
      List.mem_map_of_mem _ h₁
    have hm₂ : monthIndex r₂.orderDate ∈ df.map (fun r => monthIndex r.orderDate) :=
      List.mem_map_of_mem _ h₂
    cases hc : df.map (fun r => monthIndex r.orderDate) with
    | nil => rw [hc] at hm₁; exact absurd hm₁ (List.not_mem_nil _)
    | cons a t =>
      rw [hc] at hm₁ hm₂
      apply mem_denseRange_of_bounds
      · exact le_trans (foldl_min_le_of_mem_head a _ t hm₁) hle₁
      · exact le_trans hle₂ (le_foldl_max_of_mem_head a _ t hm₂)
  · intro df m hm
    rw [monthly_sales_months, monthKeys] at hm
    cases hc : df.map (fun r => monthIndex r.orderDate) with
    | nil => rw [hc] at hm; simp [denseRange] at hm
    | cons a t =>
      rw [hc] at hm
      simp only [denseRange] at hm
      obtain ⟨i, hiR, hieq⟩ := List.mem_map.mp hm
      have hiR2 := List.mem_range.mp hiR
      have hieq2 : t.foldl min a + (i : Int) = m := hieq
      have hloMem : t.foldl min a ∈ a :: t := by
        rcases foldl_min_mem t a with h | h
        · rw [h]; exact List.mem_cons_self a t
        · exact List.mem_cons_of_mem a h
      have hhiMem : t.foldl max a ∈ a :: t := by
        rcases foldl_max_mem t a with h | h
        · rw [h]; exact List.mem_cons_self a t
        · exact List.mem_cons_of_mem a h
      rw [← hc] at hloMem hhiMem
      obtain ⟨rlo, hrlo, hrloEq⟩ := List.mem_map.mp hloMem
      obtain ⟨rhi, hrhi, hrhiEq⟩ := List.mem_map.mp hhiMem
      constructor
      · refine ⟨rlo, hrlo, ?_⟩
        rw [hrloEq]
        omega
      · refine ⟨rhi, hrhi, ?_⟩
        rw [hrhiEq]
        omega
  · intro df
    rw [monthly_sales_months, monthKeys]
    cases df.map (fun r => monthIndex r.orderDate) with
    | nil => simp [denseRange]
    | cons a t =>
      simp only [denseRange]
      refine (List.nodup_range _).map ?_
      intro i j hij
      have hij2 : t.foldl min a + (i : Int) = t.foldl min a + (j : Int) := hij
      omega
  · intro df row hrow
    obtain ⟨k, _, rfl⟩ := List.mem_map.mp hrow
    exact ⟨rfl, rfl⟩
  · intro df row hrow hnone
    obtain ⟨k, _, rfl⟩ := List.mem_map.mp hrow
    have hfil : df.filter (fun r => decide (monthIndex r.orderDate = k)) = [] := by
      rw [List.filter_eq_nil_iff]
      intro r hr
      simp only [decide_eq_true_eq]
      exact hnone r hr
    constructor
    · show sumSales (df.filter (fun r => decide (monthIndex r.orderDate = k))) = 0
      rw [hfil]
      rfl
    · show sumProfit (df.filter (fun r => decide (monthIndex r.orderDate = k))) = 0
      rw [hfil]
      rfl

theorem monthly_dense_buckets_witness :
    addProcessingTime demoMarchRaw1 ∈ demoMarch ∧
    (24278 : Int) ∈ (monthly_sales demoMarch).map MonthRow.month ∧
    addProcessingTime demoJanRaw ∈ demoJanMar ∧
    addProcessingTime demoMarRaw ∈ demoJanMar ∧
    (24277 : Int) ∈ (monthly_sales demoJanMar).map MonthRow.month := by
  have h := monthly_dense_buckets.1 demoMarch (addProcessingTime demoMarchRaw1)
    (by decide)
  have he : monthIndex ((addProcessingTime demoMarchRaw1).orderDate) = 24278 := by decide
  rw [he] at h
  have h2 := monthly_dense_buckets.2.1 demoJanMar (addProcessingTime demoJanRaw)
    (addProcessingTime demoMarRaw) 24277 (by decide) (by decide) (by decide) (by decide)
  exact ⟨by decide, h, by decide, by decide, h2⟩

/-- C4: `computeKPIs` returns the sum of sales, the sum of profit, the
margin `totalProfit / totalSales * 100` (when the denominator is
nonzero), the sum of the absolute values of the negative profits, and the
count of distinct order ids; on two records with sales [100, 50] and
profit [20, -10] it yields totals 150, 10, losses 10, margin 20/3 ≈ 6.67
and 2 orders. -/
theorem kpi_formulas (df : List Record) (h : sumSales df ≠ 0) :
    (computeKPIs df).totalSales = (df.map Record.sales).sum ∧
    (computeKPIs df).totalProfit = (df.map Record.profit).sum ∧
    (computeKPIs df).avgMarginPct
        = some ((df.map Record.profit).sum / (df.map Record.sales).sum * 100) ∧
    (computeKPIs df).totalLosses
        = ((df.filter (fun r => decide (r.profit < 0))).map (fun r => |r.profit|)).sum ∧
    (computeKPIs df).totalOrders = (df.map Record.orderId).dedup.length ∧
    computeKPIs demoTwo =
      { totalSales := 150, totalProfit := 10, avgMarginPct := some (20 / 3),
        totalLosses := 10, totalOrders := 2 } := by
  have h1 : sumSales demoTwo = 150 := by
    norm_num [sumSales, demoTwo, addProcessingTime, baseRaw]
  have h2 : sumProfit demoTwo = 10 := by
    norm_num [sumProfit, demoTwo, addProcessingTime, baseRaw]
  have h3 : demoTwo.filter (fun r => decide (r.profit < 0))
      = [addProcessingTime { baseRaw with orderId := "ORD-2", sales := 50, profit := -10 }] := by
    norm_num [demoTwo, List.filter_cons, addProcessingTime, baseRaw]
  have h4 : sumProfit
      [addProcessingTime { baseRaw with orderId := "ORD-2", sales := 50, profit := -10 }]
      = -10 := by
    norm_num [sumProfit, addProcessingTime, baseRaw]
  have h5 : (demoTwo.map Record.orderId).dedup.length = 2 := by decide
  refine ⟨rfl, rfl, ?_, ?_, rfl, ?_⟩
  · have hdiv : safeDiv (sumProfit df) (sumSales df)
        = some (sumProfit df / sumSales df) := by
      rw [safeDiv, if_neg h]
    show (safeDiv (sumProfit df) (sumSales df)).map (fun q => q * 100) = _
    rw [hdiv]
    rfl
  · show |sumProfit (df.filter (fun r => decide (r.profit < 0)))| = _
    rw [sumProfit]
    have hall : ∀ x ∈ (df.filter (fun r => decide (r.profit < 0))).map Record.profit,
        x ≤ 0 := by
      intro x hx
      obtain ⟨r, hr, rfl⟩ := List.mem_map.mp hx
      have hneg := (List.mem_filter.mp hr).2
      simp only [decide_eq_true_eq] at hneg
      linarith
    rw [abs_sum_of_nonpos _ hall, List.map_map]
    rfl
  · rw [computeKPIs, h1, h2, h3, h4]
    rw [safeDiv, if_neg (by norm_num)]
    simp only [KPI.mk.injEq]
    exact ⟨trivial, trivial, by norm_num, by norm_num, h5⟩

theorem kpi_formulas_witness :
    sumSales demoTwo ≠ 0 ∧ (computeKPIs demoTwo).avgMarginPct = some (20 / 3) :=
  ⟨by norm_num [sumSales, demoTwo, addProcessingTime, baseRaw],
   ((kpi_formulas demoTwo
       (by norm_num [sumSales, demoTwo, addProcessingTime, baseRaw])).2.2.1).trans
     (by norm_num [demoTwo, addProcessingTime, baseRaw])⟩

/-- C5: a ratio over already-summed totals whose denominator (the summed
sales) is zero evaluates to the explicit `none` sentinel — for the KPI
average margin of any record set with zero summed sales, and for the
per-group profit-margin column of any group row with zero summed sales —
rather than to zero or to a failure. -/
theorem margin_zero_denominator_sentinel :
    (∀ df : List Record, sumSales df = 0 → (computeKPIs df).avgMarginPct = none) ∧
    (∀ (key : Record → String) (df : List Record) (g : GroupRow) (o : Option ℚ),
        (g, o) ∈ withProfitMargin (groupAgg key df) → g.sales = 0 → o = none) := by
  constructor
  · intro df h
    show (safeDiv (sumProfit df) (sumSales df)).map (fun q => q * 100) = none
    rw [h, safeDiv, if_pos rfl]
    rfl
  · intro key df g o hmem hg
    obtain ⟨g', _, heq⟩ := List.mem_map.mp hmem
    have h1 : g' = g := congrArg Prod.fst heq
    have h2 : (safeDiv g'.profit g'.sales).map (fun q => q * 100) = o :=
      congrArg Prod.snd heq
    subst h1
    rw [hg, safeDiv, if_pos rfl] at h2
    exact h2.symm

theorem margin_zero_denominator_sentinel_witness :
    sumSales [] = 0 ∧
    (computeKPIs []).avgMarginPct = none ∧
    ({ key := "Furniture", sales := 0, profit := -5 } : GroupRow).sales = 0 ∧
    Option.map (fun q => q * 100) (safeDiv (-5 : ℚ) 0) = none := by
  have hmem : (({ key := "Furniture", sales := 0, profit := -5 } : GroupRow),
      Option.map (fun q => q * 100) (safeDiv (-5 : ℚ) 0))
      ∈ withProfitMargin (groupAgg Record.category [demoZeroSales]) := by
    have hga : groupAgg Record.category [demoZeroSales]
        = [{ key := "Furniture", sales := 0, profit := -5 }] := by
      norm_num [groupAgg, sumSales, sumProfit, demoZeroSales, addProcessingTime,
        baseRaw, List.insertionSort, List.orderedInsert]
    rw [hga, withProfitMargin]
    simp [safeDiv]
  exact ⟨rfl, margin_zero_denominator_sentinel.1 [] rfl, rfl,
    margin_zero_denominator_sentinel.2 Record.category [demoZeroSales]
      { key := "Furniture", sales := 0, profit := -5 }
      (Option.map (fun q => q * 100) (safeDiv (-5 : ℚ) 0)) hmem rfl⟩

/-- C6: a FilterSpec whose date interval covers every order date present
and whose allowed-value set contains every value present in each
categorical dimension leaves the record set unchanged: the filter is the
identity. -/
theorem full_spec_identity (df : List Record) (s : FilterSpec)
    (hdate : ∀ r ∈ df, s.startDate.toDays ≤ r.orderDate.toDays ∧
      r.orderDate.toDays ≤ s.endDate.toDays)
    (hcat : ∀ r ∈ df, r.category ∈ s.categories)
    (hsub : ∀ r ∈ df, r.subCategory ∈ s.subCategories)
    (hreg : ∀ r ∈ df, r.region ∈ s.regions)
    (hst : ∀ r ∈ df, r.state ∈ s.states)
    (hship : ∀ r ∈ df, r.shipMode ∈ s.shipModes)
    (hseg : ∀ r ∈ df, r.segment ∈ s.segments) :
    filtered_df df s = df := by
  rw [filtered_df]
  apply List.filter_eq_self.mpr
  intro r hr
  simp only [recordPasses, Bool.and_eq_true, decide_eq_true_eq]
  exact ⟨⟨⟨⟨⟨⟨⟨(hdate r hr).1, (hdate r hr).2⟩, hcat r hr⟩, hreg r hr⟩,
    hship r hr⟩, hst r hr⟩, hseg r hr⟩, hsub r hr⟩

theorem full_spec_identity_witness :
    filtered_df demoTwo demoFullSpec = demoTwo :=
  full_spec_identity demoTwo demoFullSpec (by decide) (by decide) (by decide)
    (by decide) (by decide) (by decide) (by decide)

/-- C7: removing one value from the allowed-value set of any single
dimension never increases the size of the filtered subset, and the
filtered subset is never larger than the input record set. -/
theorem filter_shrink_monotone (df : List Record) (s : FilterSpec)
    (d : Dimension) (v : String) :
    (filtered_df df (removeValue d v s)).length ≤ (filtered_df df s).length ∧
    (filtered_df df s).length ≤ df.length := by
  constructor
  · exact length_filter_mono _ _ df
      (fun r _ h => recordPasses_removeValue d v s r h)
  · exact List.length_filter_le _ df

/-- C8: for any grouping key the per-group summed sales add up to the
summed sales of the grouped record set — in particular for the
category-sales and the sub-category-sales aggregations (grouping
conserves the total). -/
theorem grouping_conserves_sales :
    (∀ (key : Record → String) (df : List Record),
        ((groupAgg key df).map GroupRow.sales).sum = sumSales df) ∧
    (∀ df : List Record, ((category_sales df).map GroupRow.sales).sum = sumSales df) ∧
    (∀ df : List Record,
        ((subcategory_sales df).map GroupRow.sales).sum = sumSales df) := by
  have hmain : ∀ (key : Record → String) (df : List Record),
      ((groupAgg key df).map GroupRow.sales).sum = sumSales df := by
    intro key df
    rw [groupAgg, List.map_map]
    have hfun : (GroupRow.sales ∘ fun k =>
        ({ key := k,
           sales := sumSales (df.filter (fun r => decide (key r = k))),
           profit := sumProfit (df.filter (fun r => decide (key r = k))) } : GroupRow))
        = fun k => sumSales (df.filter (fun r => decide (key r = k))) := rfl
    rw [hfun]
    have hperm := List.perm_insertionSort (fun a b : String => a ≤ b) (df.map key).dedup
    have hsum := (hperm.map
      (fun k => sumSales (df.filter (fun r => decide (key r = k))))).sum_eq
    rw [hsum]
    have hfib := sum_over_fibers key Record.sales (df.map key).dedup
      (List.nodup_dedup _) df
      (fun r hr => List.mem_dedup.mpr (List.mem_map_of_mem key hr))
    simpa [sumSales] using hfib
  refine ⟨hmain, fun df => hmain Record.category df, fun df => ?_⟩
  have hperm := List.perm_insertionSort (fun a b : GroupRow => b.sales ≤ a.sales)
    (groupAgg Record.subCategory df)
  have hsum := (hperm.map GroupRow.sales).sum_eq
  rw [subcategory_sales, hsum, hmain Record.subCategory df]

/-- C9: the loader derives the processing time of every record as ship
date minus order date in whole days, passing a negative difference
through unchanged; order date 2023-01-01 with ship date 2023-01-05 yields
processing time 4, and the reversed pair yields -4. -/
theorem processing_time_days :
    (∀ rows : List RawRecord, load_data rows = rows.map addProcessingTime) ∧
    (∀ raw : RawRecord,
        (addProcessingTime raw).processingTime
          = raw.shipDate.toDays - raw.orderDate.toDays) ∧
    (addProcessingTime demoShip).processingTime = 4 ∧
    (addProcessingTime demoShipNeg).processingTime = -4 :=
  ⟨fun _ => rfl, fun _ => rfl, by decide, by decide⟩

/-- C10: when the data source is absent at both probed locations the load
fails (an empty record set is produced together with the error surface)
and the pipeline halts before any filtering runs, embedded as the `none`
outcome of `run_pipeline`. -/
theorem load_failure_halts :
    (∀ s : FilterSpec, run_pipeline none none s = none) ∧
    load_data_from none none = [] :=
  ⟨fun _ => rfl, rfl⟩

end Superstore
